import Mathlib

/-!
Verification of jolajoamemo (Tauri/Rust note-taking assistant).

Shallow embedding conventions:
* Rust byte strings (`&[u8]`, and `String`/`&str` where the code treats them
  as UTF-8 bytes, i.e. in the crypto layer) are `List Nat` with every element
  `< 256`.
* Rust `String` values handled purely as text (DB columns, titles, ...) are
  Lean `String`.
* The AES-256-GCM cipher of the `aes_gcm` crate is an external library; it is
  modelled by its AEAD contract (`AEADScheme`): decryption inverts encryption
  and ciphertexts are bytes.  The fresh random nonce of `encrypt_value` is an
  explicit parameter.
* SQLite is modelled as in-memory lists of rows; `AUTOINCREMENT` row ids come
  from per-table counters; `datetime('now')` is an abstract `now` field of the
  state.
-/

namespace JJM

/-! ## Base64 (the `base64` crate, STANDARD engine: canonical padding) -/

/-- Byte values of the standard base64 alphabet A-Z a-z 0-9 + / . -/
def b64alphabet : List Nat :=
  [65, 66, 67, 68, 69, 70, 71, 72, 73, 74, 75, 76, 77, 78, 79, 80, 81, 82,
   83, 84, 85, 86, 87, 88, 89, 90,
   97, 98, 99, 100, 101, 102, 103, 104, 105, 106, 107, 108, 109, 110, 111,
   112, 113, 114, 115, 116, 117, 118, 119, 120, 121, 122,
   48, 49, 50, 51, 52, 53, 54, 55, 56, 57, 43, 47]

/-- Encode one 6-bit group as its base64 alphabet byte. -/
def encB64 (x : Nat) : Nat := b64alphabet.getD x 0

/-- Index of a byte in a list, or `none`. -/
def idxIn : List Nat → Nat → Nat → Option Nat
  | [], _, _ => none
  | a :: rest, c, i => if a = c then some i else idxIn rest c (i + 1)

/-- Decode one base64 alphabet byte back to its 6-bit group. -/
def decB64 (c : Nat) : Option Nat := idxIn b64alphabet c 0

/-- base64-encode a byte list (3 bytes to 4 chars, `=` = byte 61 padding). -/
def b64encode : List Nat → List Nat
  | [] => []
  | [a] => [encB64 (a / 4), encB64 (a % 4 * 16), 61, 61]
  | [a, b] => [encB64 (a / 4), encB64 (a % 4 * 16 + b / 16), encB64 (b % 16 * 4), 61]
  | a :: b :: c :: rest =>
      encB64 (a / 4) :: encB64 (a % 4 * 16 + b / 16) ::
        encB64 (b % 16 * 4 + c / 64) :: encB64 (c % 64) :: b64encode rest

/-- base64-decode (strict: length divisible by 4, canonical padding,
zero trailing bits, as the STANDARD engine checks). -/
def b64decode : List Nat → Option (List Nat)
  | [] => some []
  | c0 :: c1 :: c2 :: c3 :: rest =>
    match decB64 c0, decB64 c1 with
    | some s0, some s1 =>
      if c2 = 61 then
        if c3 = 61 ∧ rest = [] ∧ s1 % 16 = 0 then some [s0 * 4 + s1 / 16] else none
      else
        match decB64 c2 with
        | some s2 =>
          if c3 = 61 then
            if rest = [] ∧ s2 % 4 = 0 then
              some [s0 * 4 + s1 / 16, s1 % 16 * 16 + s2 / 4]
            else none
          else
            match decB64 c3 with
            | some s3 =>
                (b64decode rest).map
                  (fun bs => (s0 * 4 + s1 / 16) :: (s1 % 16 * 16 + s2 / 4) ::
                    (s2 % 4 * 64 + s3) :: bs)
            | none => none
        | none => none
    | _, _ => none
  | _ => none

/-- Decoding inverts encoding on each 6-bit group. -/
theorem decB64_encB64 : ∀ x, x < 64 → decB64 (encB64 x) = some x := by decide

/-- The padding byte is not in the alphabet. -/
theorem decB64_pad : decB64 61 = none := by decide

/-- Alphabet bytes are never the padding byte. -/
theorem encB64_ne_pad (x : Nat) (hx : x < 64) : encB64 x ≠ 61 := by
  intro h
  have hd := decB64_encB64 x hx
  rw [h, decB64_pad] at hd
  exact Option.noConfusion hd

/-- base64 round-trip: decoding an encoded byte list gives it back. -/
theorem b64decode_encode :
    ∀ bs : List Nat, (∀ b ∈ bs, b < 256) → b64decode (b64encode bs) = some bs := by
  intro bs
  induction bs using b64encode.induct with
  | case1 =>
      intro _; rfl
  | case2 a =>
      intro h
      have ha : a < 256 := h a (by simp)
      have h0 : a / 4 < 64 := by omega
      have h1 : a % 4 * 16 < 64 := by omega
      have e0 : a % 4 * 16 % 16 = 0 := by omega
      have e1 : a / 4 * 4 + a % 4 * 16 / 16 = a := by omega
      simp [b64encode, b64decode, decB64_encB64 _ h0, decB64_encB64 _ h1, e0, e1]
      omega
  | case3 a b =>
      intro h
      have ha : a < 256 := h a (by simp)
      have hb : b < 256 := h b (by simp)
      have h0 : a / 4 < 64 := by omega
      have h1 : a % 4 * 16 + b / 16 < 64 := by omega
      have h2 : b % 16 * 4 < 64 := by omega
      have e0 : b % 16 * 4 % 4 = 0 := by omega
      have e1 : a / 4 * 4 + (a % 4 * 16 + b / 16) / 16 = a := by omega
      have e2 : (a % 4 * 16 + b / 16) % 16 * 16 + b % 16 * 4 / 4 = b := by omega
      simp [b64encode, b64decode, decB64_encB64 _ h0, decB64_encB64 _ h1,
        decB64_encB64 _ h2, encB64_ne_pad _ h2, e0, e1, e2]
      omega
  | case4 a b c rest ih =>
      intro h
      have ha : a < 256 := h a (by simp)
      have hb : b < 256 := h b (by simp)
      have hc : c < 256 := h c (by simp)
      have hrest : ∀ x ∈ rest, x < 256 := fun x hx => h x (by simp [hx])
      have h0 : a / 4 < 64 := by omega
      have h1 : a % 4 * 16 + b / 16 < 64 := by omega
      have h2 : b % 16 * 4 + c / 64 < 64 := by omega
      have h3 : c % 64 < 64 := by omega
      have e1 : a / 4 * 4 + (a % 4 * 16 + b / 16) / 16 = a := by omega
      have e2 : (a % 4 * 16 + b / 16) % 16 * 16 + (b % 16 * 4 + c / 64) / 4 = b := by omega
      have e3 : (b % 16 * 4 + c / 64) % 4 * 64 + c % 64 = c := by omega
      simp [b64encode, b64decode, decB64_encB64 _ h0, decB64_encB64 _ h1,
        decB64_encB64 _ h2, decB64_encB64 _ h3, encB64_ne_pad _ h2,
        encB64_ne_pad _ h3, ih hrest, e1, e2, e3]

/-! ## UTF-8 validity (`String::from_utf8` of the Rust standard library) -/

/-- `true` iff a byte list is valid UTF-8, following the byte-range table of
the Rust standard library validator. -/
def isValidUtf8 : List Nat → Bool
  | [] => true
  | b :: rest =>
    if b ≤ 0x7F then isValidUtf8 rest
    else if b < 0xC2 then false
    else if b ≤ 0xDF then
      match rest with
      | b1 :: r => decide (0x80 ≤ b1 ∧ b1 ≤ 0xBF) && isValidUtf8 r
      | [] => false
    else if b ≤ 0xEF then
      match rest with
      | b1 :: b2 :: r =>
        (if b = 0xE0 then decide (0xA0 ≤ b1 ∧ b1 ≤ 0xBF)
         else if b = 0xED then decide (0x80 ≤ b1 ∧ b1 ≤ 0x9F)
         else decide (0x80 ≤ b1 ∧ b1 ≤ 0xBF)) &&
        decide (0x80 ≤ b2 ∧ b2 ≤ 0xBF) && isValidUtf8 r
      | _ => false
    else if b ≤ 0xF4 then
      match rest with
      | b1 :: b2 :: b3 :: r =>
        (if b = 0xF0 then decide (0x90 ≤ b1 ∧ b1 ≤ 0xBF)
         else if b = 0xF4 then decide (0x80 ≤ b1 ∧ b1 ≤ 0x8F)
         else decide (0x80 ≤ b1 ∧ b1 ≤ 0xBF)) &&
        decide (0x80 ≤ b2 ∧ b2 ≤ 0xBF) && decide (0x80 ≤ b3 ∧ b3 ≤ 0xBF) &&
        isValidUtf8 r
      | _ => false
    else false

/-! ## The AEAD contract of `aes_gcm::Aes256Gcm` -/

/-- Contract of an authenticated cipher as used by the code: `enc key nonce
plaintext` yields the ciphertext (tag included), `dec` inverts it, and
ciphertexts are bytes whenever plaintexts are. -/
structure AEADScheme where
  enc : List Nat → List Nat → List Nat → List Nat
  dec : List Nat → List Nat → List Nat → Option (List Nat)
  dec_enc : ∀ k n p, dec k n (enc k n p) = some p
  enc_bytes : ∀ k n p, (∀ b ∈ p, b < 256) → ∀ b ∈ enc k n p, b < 256

/-- A trivial scheme satisfying the contract, used to evaluate witnesses. -/
def idAEAD : AEADScheme where
  enc := fun _ _ p => p
  dec := fun _ _ c => some c
  dec_enc := fun _ _ _ => rfl
  enc_bytes := fun _ _ _ h => h

/-! ## `encrypt_value` / `decrypt_value` (src-tauri/src/db/mod.rs:49-91) -/

/-- `encrypt_value`: encrypt the plaintext under the fresh 12-byte nonce,
prepend the nonce to the ciphertext and base64-encode the pair.  The random
nonce is passed explicitly. -/
def encrypt_value (A : AEADScheme) (key nonce pt : List Nat) : List Nat :=
  b64encode (nonce ++ A.enc key nonce pt)

/-- `decrypt_value`: base64-decode, split off the 12-byte nonce, decrypt,
decode UTF-8; every failure is mapped to `rusqlite::Error::InvalidQuery`. -/
def decrypt_value (A : AEADScheme) (key : List Nat) (encrypted : List Nat) :
    Except String (List Nat) :=
  match b64decode encrypted with
  | none => .error "InvalidQuery"
  | some combined =>
    if combined.length < 12 then .error "InvalidQuery"
    else
      match A.dec key (combined.take 12) (combined.drop 12) with
      | none => .error "InvalidQuery"
      | some pt => if isValidUtf8 pt then .ok pt else .error "InvalidQuery"

/-- C1: for every byte string S (valid UTF-8, as Rust `&str` guarantees) and
every key, decrypting the stored encryption of S under any initialized key
yields S, the fresh random 12-byte nonce being an arbitrary parameter. -/
theorem encrypt_then_decrypt_roundtrip (A : AEADScheme) (key nonce pt : List Nat)
    (hn : nonce.length = 12) (hnb : ∀ b ∈ nonce, b < 256)
    (hpb : ∀ b ∈ pt, b < 256) (hutf : isValidUtf8 pt = true) :
    decrypt_value A key (encrypt_value A key nonce pt) = Except.ok pt := by
  have hall : ∀ b ∈ nonce ++ A.enc key nonce pt, b < 256 := by
    intro b hb
    rcases List.mem_append.mp hb with h | h
    · exact hnb b h
    · exact A.enc_bytes key nonce pt hpb b h
  have hdec := b64decode_encode (nonce ++ A.enc key nonce pt) hall
  have hlen : (nonce ++ A.enc key nonce pt).length = 12 + (A.enc key nonce pt).length := by
    simp [hn]
  have htake : (nonce ++ A.enc key nonce pt).take 12 = nonce := by
    rw [← hn]; exact List.take_left nonce _
  have hdrop : (nonce ++ A.enc key nonce pt).drop 12 = A.enc key nonce pt := by
    rw [← hn]; exact List.drop_left nonce _
  simp only [encrypt_value, decrypt_value, hdec]
  rw [if_neg (by omega), htake, hdrop, A.dec_enc]
  simp [hutf]

/-- Witness for C1 at a concrete input: plaintext "hi" = bytes [104, 105],
all-zero nonce, the trivial AEAD instance. -/
theorem encrypt_then_decrypt_roundtrip_witness :
    decrypt_value idAEAD [] (encrypt_value idAEAD [] (List.replicate 12 0) [104, 105]) =
      Except.ok [104, 105] :=
  encrypt_then_decrypt_roundtrip idAEAD [] (List.replicate 12 0) [104, 105]
    (by decide) (by decide) (by decide) (by decide)

/-! ## `get_model_price` / `calculate_cost` (src-tauri/src/ai.rs:264-384)

Rust `f64` prices and costs are modelled as exact rationals. -/

/-- Default input price per 1M tokens. -/
def INPUT_PRICE_PER_M : ℚ := 0.10

/-- Default output price per 1M tokens. -/
def OUTPUT_PRICE_PER_M : ℚ := 0.40

/-- `get_model_price`: (input, output) USD price per 1M tokens. -/
def get_model_price (model : String) : ℚ × ℚ :=
  if model = "gemini-2.0-flash-lite" then (0.075, 0.30)
  else if model = "gemini-2.0-flash" then (0.10, 0.40)
  else if model = "gemini-2.5-flash-lite" then (0.10, 0.40)
  else if model = "gemini-2.5-flash" then (0.30, 2.50)
  else if model = "gemini-2.5-pro" then (1.25, 10.00)
  else if model = "gemini-3-flash-preview" then (0.50, 3.00)
  else if model = "gemini-3-pro-preview" then (2.00, 12.00)
  else (INPUT_PRICE_PER_M, OUTPUT_PRICE_PER_M)

/-- `calculate_cost`. -/
def calculate_cost (model : String) (input_tokens output_tokens : Int) : ℚ :=
  (input_tokens : ℚ) * (get_model_price model).1 / 1000000 +
    (output_tokens : ℚ) * (get_model_price model).2 / 1000000

/-- The model names with an explicit price table entry. -/
def knownModels : List String :=
  ["gemini-2.0-flash-lite", "gemini-2.0-flash", "gemini-2.5-flash-lite",
   "gemini-2.5-flash", "gemini-2.5-pro", "gemini-3-flash-preview",
   "gemini-3-pro-preview"]

/-- C5: the computed cost is exactly the linear per-million-token formula, and
unknown model names fall back to the default prices (0.10, 0.40). -/
theorem calculate_cost_linear (model : String) (i o : Int) :
    calculate_cost model i o =
      (i : ℚ) * (get_model_price model).1 / 1000000 +
        (o : ℚ) * (get_model_price model).2 / 1000000 ∧
    (model ∉ knownModels → get_model_price model = (0.10, 0.40)) := by
  refine ⟨rfl, fun hm => ?_⟩
  simp only [knownModels, List.mem_cons, List.not_mem_nil, or_false, not_or] at hm
  obtain ⟨h1, h2, h3, h4, h5, h6, h7⟩ := hm
  simp only [get_model_price, if_neg h1, if_neg h2, if_neg h3, if_neg h4,
    if_neg h5, if_neg h6, if_neg h7]
  rfl

/-- Witness for C5 at a concrete unknown model name and token counts. -/
theorem calculate_cost_linear_witness :
    calculate_cost "foo-model" 3 5 =
      (3 : ℚ) * (get_model_price "foo-model").1 / 1000000 +
        (5 : ℚ) * (get_model_price "foo-model").2 / 1000000 ∧
    get_model_price "foo-model" = (0.10, 0.40) :=
  ⟨(calculate_cost_linear "foo-model" 3 5).1,
   (calculate_cost_linear "foo-model" 3 5).2 (by decide)⟩

/-! ## Relational store (src-tauri/src/db/mod.rs)

Each table is a list of rows; `AUTOINCREMENT` ids come from per-table
counters; `datetime('now')` is the abstract `now` field.  `ORDER BY` clauses
of the read queries only permute rows and are not modelled; every lookup the
claims depend on is by unique id. -/

structure MemoRow where
  id : Int
  title : String
  content : String
  formatted_content : String
  summary : String
  category : String
  tags : String
  embedding : Option (List Nat)
  created_at : String
  updated_at : String
deriving DecidableEq

structure ScheduleRow where
  id : Int
  memo_id : Option Int
  title : String
  start_time : Option String
  end_time : Option String
  location : Option String
  description : Option String
  google_event_id : Option String
  created_at : String
deriving DecidableEq

structure TodoRow where
  id : Int
  memo_id : Option Int
  title : String
  completed : Bool
  priority : Option String
  due_date : Option String
  created_at : String
deriving DecidableEq

structure TxRow where
  id : Int
  memo_id : Option Int
  tx_type : String
  amount : Int
  description : String
  category : Option String
  tx_date : Option String
  created_at : String
deriving DecidableEq

structure AttachmentRow where
  id : Int
  memo_id : Int
  file_name : String
  file_path : String
  original_path : String
  is_copy : Bool
  file_size : Int
  created_at : String
deriving DecidableEq

structure UsageRow where
  operation : String
  model : String
  input_tokens : Int
  output_tokens : Int
  cost_usd : ℚ
deriving DecidableEq

structure DBState where
  memos : List MemoRow
  schedules : List ScheduleRow
  todos : List TodoRow
  transactions : List TxRow
  attachments : List AttachmentRow
  settings : List (String × String)
  apiUsage : List UsageRow
  nextMemoId : Int
  nextScheduleId : Int
  nextTodoId : Int
  nextTxId : Int
  now : String
deriving DecidableEq

/-- Value of `SELECT value FROM settings WHERE key = ?1` after
`unwrap_or_default`: the stored value, or `""` when the row is missing. -/
def settingValue (st : DBState) (key : String) : String :=
  ((st.settings.find? (fun kv => kv.1 = key)).map (fun kv => kv.2)).getD ""

/-- `get_setting`: the no-row query error is absorbed by `unwrap_or_default`,
so the function always returns `Ok`. -/
def get_setting (st : DBState) (key : String) : Except String String :=
  .ok (settingValue st key)

/-- `get_all_memos` (`ORDER BY updated_at DESC` permutes only). -/
def get_all_memos (st : DBState) : List MemoRow := st.memos

/-- `save_memo`: INSERT and return `last_insert_rowid()`. -/
def save_memo (st : DBState) (m : MemoRow) : DBState × Int :=
  let row := { m with id := st.nextMemoId, created_at := st.now, updated_at := st.now }
  ({ st with memos := st.memos ++ [row], nextMemoId := st.nextMemoId + 1 },
   st.nextMemoId)

/-- `update_memo` (merge path): overwrite content, formatted_content,
summary, tags, embedding and touch updated_at on the row with the given id. -/
def update_memo (st : DBState) (id : Int) (content formatted_content summary tags : String)
    (embedding : Option (List Nat)) : DBState :=
  { st with memos := st.memos.map (fun m =>
      if m.id = id then
        { m with
          content := content
          formatted_content := formatted_content
          summary := summary
          tags := tags
          embedding := embedding
          updated_at := st.now }
      else m) }

/-- `delete_memo` together with the SQLite actions declared in the schema of
`init_db`: children in schedules/todos/transactions carry
`ON DELETE SET NULL`, attachments `ON DELETE CASCADE`.  The actions fire
exactly when a memos row with the id is actually deleted. -/
def delete_memo (st : DBState) (id : Int) : DBState :=
  if st.memos.any (fun m => m.id = id) then
    { st with
      memos := st.memos.filter (fun m => ¬ m.id = id)
      schedules := st.schedules.map (fun s =>
        if s.memo_id = some id then { s with memo_id := none } else s)
      todos := st.todos.map (fun t =>
        if t.memo_id = some id then { t with memo_id := none } else t)
      transactions := st.transactions.map (fun t =>
        if t.memo_id = some id then { t with memo_id := none } else t)
      attachments := st.attachments.filter (fun a => ¬ a.memo_id = id) }
  else st

/-- `save_schedule`. -/
def save_schedule (st : DBState) (s : ScheduleRow) : DBState × Int :=
  let row := { s with id := st.nextScheduleId, created_at := st.now }
  ({ st with
      schedules := st.schedules ++ [row]
      nextScheduleId := st.nextScheduleId + 1 }, st.nextScheduleId)

/-- `save_todo`. -/
def save_todo (st : DBState) (t : TodoRow) : DBState × Int :=
  let row := { t with id := st.nextTodoId, created_at := st.now }
  ({ st with todos := st.todos ++ [row], nextTodoId := st.nextTodoId + 1 },
   st.nextTodoId)

/-- `save_transaction`. -/
def save_transaction (st : DBState) (t : TxRow) : DBState × Int :=
  let row := { t with id := st.nextTxId, created_at := st.now }
  ({ st with transactions := st.transactions ++ [row], nextTxId := st.nextTxId + 1 },
   st.nextTxId)

/-- `get_schedule_memo_id`: the memo_id of the schedule row, `Ok(None)` on
any query error (in particular a missing row). -/
def get_schedule_memo_id (st : DBState) (id : Int) : Except String (Option Int) :=
  .ok (match st.schedules.find? (fun s => s.id = id) with
       | some s => s.memo_id
       | none => none)

/-- `get_todo_memo_id`. -/
def get_todo_memo_id (st : DBState) (id : Int) : Except String (Option Int) :=
  .ok (match st.todos.find? (fun t => t.id = id) with
       | some t => t.memo_id
       | none => none)

/-- `get_transaction_memo_id`. -/
def get_transaction_memo_id (st : DBState) (id : Int) : Except String (Option Int) :=
  .ok (match st.transactions.find? (fun t => t.id = id) with
       | some t => t.memo_id
       | none => none)

/-- `db::delete_schedule` (the schedules table has no FK children). -/
def delete_schedule_db (st : DBState) (id : Int) : DBState :=
  { st with schedules := st.schedules.filter (fun s => ¬ s.id = id) }

/-- `db::delete_todo`. -/
def delete_todo_db (st : DBState) (id : Int) : DBState :=
  { st with todos := st.todos.filter (fun t => ¬ t.id = id) }

/-- `db::delete_transaction`. -/
def delete_transaction_db (st : DBState) (id : Int) : DBState :=
  { st with transactions := st.transactions.filter (fun t => ¬ t.id = id) }

/-- `log_api_usage`. -/
def log_api_usage (st : DBState) (operation model : String)
    (input_tokens output_tokens : Int) (cost_usd : ℚ) : DBState :=
  { st with apiUsage := st.apiUsage ++
      [{ operation := operation
         model := model
         input_tokens := input_tokens
         output_tokens := output_tokens
         cost_usd := cost_usd }] }

/-! ## Tauri commands (src-tauri/src/lib.rs) -/

/-- `delete_schedule` command: delete the linked memo first (ignoring
failures), then the schedule itself. -/
def delete_schedule_cmd (st : DBState) (id : Int) : Except String DBState :=
  match get_schedule_memo_id st id with
  | .ok (some mid) => .ok (delete_schedule_db (delete_memo st mid) id)
  | .ok none => .ok (delete_schedule_db st id)
  | .error _ => .ok (delete_schedule_db st id)

/-- `delete_todo` command. -/
def delete_todo_cmd (st : DBState) (id : Int) : Except String DBState :=
  match get_todo_memo_id st id with
  | .ok (some mid) => .ok (delete_todo_db (delete_memo st mid) id)
  | .ok none => .ok (delete_todo_db st id)
  | .error _ => .ok (delete_todo_db st id)

/-- `delete_transaction` command. -/
def delete_transaction_cmd (st : DBState) (id : Int) : Except String DBState :=
  match get_transaction_memo_id st id with
  | .ok (some mid) => .ok (delete_transaction_db (delete_memo st mid) id)
  | .ok none => .ok (delete_transaction_db st id)
  | .error _ => .ok (delete_transaction_db st id)

/-! ## AI analysis structures (src-tauri/src/ai.rs:287-338) -/

structure ScheduleInfo where
  title : String
  start_time : Option String
  end_time : Option String
  location : Option String
  description : Option String
deriving DecidableEq

structure TodoInfo where
  title : String
  priority : Option String
  due_date : Option String
deriving DecidableEq

structure TransactionInfo where
  tx_type : String
  amount : Int
  description : String
  category : Option String
  tx_date : Option String
deriving DecidableEq

structure AnalysisResult where
  title : String
  formatted_content : String
  summary : String
  category : String
  tags : List String
  should_merge_with : Option Int
  schedules : List ScheduleInfo
  todos : List TodoInfo
  transactions : List TransactionInfo
deriving DecidableEq

structure TokenUsage where
  input_tokens : Int
  output_tokens : Int
  cost_usd : ℚ
deriving DecidableEq

structure InputResult where
  success : Bool
  message : String
  memo_id : Option Int
  merged : Bool
  title : String
  input_tokens : Int
  output_tokens : Int
  cost_usd : ℚ
  schedules_added : Int
  todos_added : Int
deriving DecidableEq

/-! ## `input_memo` (src-tauri/src/lib.rs:44-223)

The awaited `ai::analyze_multi_memo` call is external HTTP; its result is the
explicit parameter `ai`. -/

/-- Mutable state of the per-item loop of `input_memo`. -/
structure LoopState where
  db : DBState
  saved_count : Nat
  merged_count : Nat
  titles : List String
  schedules_added : Int
  todos_added : Int
  transactions_added : Int
  last_memo_id : Option Int

/-- The `for schedule_info in analysis.schedules` loop: save each schedule
linked to the memo. -/
def saveSchedules (memo_id : Option Int) (l : List ScheduleInfo) (db : DBState) :
    DBState :=
  l.foldl (fun db si =>
    (save_schedule db
      { id := 0
        memo_id := memo_id
        title := si.title
        start_time := si.start_time
        end_time := si.end_time
        location := si.location
        description := si.description
        google_event_id := none
        created_at := "" }).1) db

/-- The `for todo_info in analysis.todos` loop. -/
def saveTodos (memo_id : Option Int) (l : List TodoInfo) (db : DBState) : DBState :=
  l.foldl (fun db ti =>
    (save_todo db
      { id := 0
        memo_id := memo_id
        title := ti.title
        completed := false
        priority := ti.priority
        due_date := ti.due_date
        created_at := "" }).1) db

/-- The `for tx_info in analysis.transactions` loop. -/
def saveTransactions (memo_id : Option Int) (l : List TransactionInfo)
    (db : DBState) : DBState :=
  l.foldl (fun db xi =>
    (save_transaction db
      { id := 0
        memo_id := memo_id
        tx_type := xi.tx_type
        amount := xi.amount
        description := xi.description
        category := xi.category
        tx_date := xi.tx_date
        created_at := "" }).1) db

/-- One iteration of the `for analysis in items` loop. -/
def processItem (existing_memos : List MemoRow) (content : String)
    (ls : LoopState) (analysis : AnalysisResult) : LoopState :=
  let tags_str := String.intercalate ", " analysis.tags
  let step :=
    match analysis.should_merge_with with
    | some merge_id =>
      match existing_memos.find? (fun m : MemoRow => m.id = merge_id) with
      | some existing =>
        let merged_content := existing.content ++ "\n\n---\n\n" ++ content
        let merged_formatted :=
          existing.formatted_content ++ "\n\n---\n\n" ++ analysis.formatted_content
        let merged_tags :=
          if existing.tags = "" then tags_str
          else existing.tags ++ ", " ++ tags_str
        (update_memo ls.db merge_id merged_content merged_formatted
           analysis.summary merged_tags none,
         some merge_id, ls.saved_count, ls.merged_count + 1,
         ls.titles ++ [existing.title ++ "(병합)"])
      | none => (ls.db, none, ls.saved_count, ls.merged_count, ls.titles)
    | none =>
      let new_memo : MemoRow :=
        { id := 0
          title := analysis.title
          content := content
          formatted_content := analysis.formatted_content
          summary := analysis.summary
          category := analysis.category
          tags := tags_str
          embedding := none
          created_at := ""
          updated_at := "" }
      let saved := save_memo ls.db new_memo
      (saved.1, some saved.2, ls.saved_count + 1, ls.merged_count,
       ls.titles ++ [analysis.title])
  let db1 := step.1
  let memo_id := step.2.1
  let db2 := saveSchedules memo_id analysis.schedules db1
  let db3 := saveTodos memo_id analysis.todos db2
  let db4 := saveTransactions memo_id analysis.transactions db3
  { db := db4
    saved_count := step.2.2.1
    merged_count := step.2.2.2.1
    titles := step.2.2.2.2
    schedules_added := ls.schedules_added + analysis.schedules.length
    todos_added := ls.todos_added + analysis.todos.length
    transactions_added := ls.transactions_added + analysis.transactions.length
    last_memo_id := match memo_id with
                    | some _ => memo_id
                    | none => ls.last_memo_id }

/-- `input_memo`: check the API key, fetch context, record usage, then merge
or insert each analysis item and attach its derived records. -/
def input_memo (st : DBState) (content : String)
    (ai : Except String (List AnalysisResult × TokenUsage)) :
    Except String (DBState × InputResult) :=
  match get_setting st "gemini_api_key" with
  | .error e => .error e
  | .ok api_key =>
    if api_key = "" then .error "API 키를 먼저 설정해주세요"
    else
      let model := (get_setting st "gemini_model").toOption.getD ""
      let existing_memos := get_all_memos st
      match ai with
      | .error e => .error e
      | .ok (items, usage) =>
        let model_name := if model = "" then "gemini-3-flash-preview" else model
        let st1 := log_api_usage st "analyze" model_name
          usage.input_tokens usage.output_tokens usage.cost_usd
        let ls := items.foldl (processItem existing_memos content)
          { db := st1
            saved_count := 0
            merged_count := 0
            titles := []
            schedules_added := 0
            todos_added := 0
            transactions_added := 0
            last_memo_id := none }
        let extra_parts :=
          (if ls.schedules_added > 0 then
            ["일정 " ++ toString ls.schedules_added ++ "개"] else []) ++
          (if ls.todos_added > 0 then
            ["할일 " ++ toString ls.todos_added ++ "개"] else []) ++
          (if ls.transactions_added > 0 then
            ["가계부 " ++ toString ls.transactions_added ++ "건"] else [])
        let extra_msg :=
          if extra_parts = [] then ""
          else " (" ++ String.intercalate ", " extra_parts ++ ")"
        let message :=
          if ls.titles.length = 1 then
            "'" ++ ls.titles.headD "" ++ "' 저장됨" ++ extra_msg
          else
            toString ls.saved_count ++ "개 저장, " ++ toString ls.merged_count ++
              "개 병합: " ++ String.intercalate ", " ls.titles ++ extra_msg
        .ok (ls.db,
          { success := true
            message := message
            memo_id := ls.last_memo_id
            merged := ls.merged_count > 0
            title := String.intercalate ", " ls.titles
            input_tokens := usage.input_tokens
            output_tokens := usage.output_tokens
            cost_usd := usage.cost_usd
            schedules_added := ls.schedules_added
            todos_added := ls.todos_added })

/-! ## Lemmas about the store operations -/

/-- Saving schedules never touches the memos table. -/
theorem saveSchedules_memos (mid : Option Int) :
    ∀ (l : List ScheduleInfo) (db : DBState), (saveSchedules mid l db).memos = db.memos := by
  intro l
  induction l with
  | nil => intro db; rfl
  | cons a l ih => intro db; exact ih _

/-- Saving todos never touches the memos table. -/
theorem saveTodos_memos (mid : Option Int) :
    ∀ (l : List TodoInfo) (db : DBState), (saveTodos mid l db).memos = db.memos := by
  intro l
  induction l with
  | nil => intro db; rfl
  | cons a l ih => intro db; exact ih _

/-- Saving transactions never touches the memos table. -/
theorem saveTransactions_memos (mid : Option Int) :
    ∀ (l : List TransactionInfo) (db : DBState),
      (saveTransactions mid l db).memos = db.memos := by
  intro l
  induction l with
  | nil => intro db; rfl
  | cons a l ih => intro db; exact ih _

/-- Mapping an id-preserving row function preserves the id column. -/
theorem map_map_id_of_id (l : List MemoRow) (f : MemoRow → MemoRow)
    (hid : ∀ m, (f m).id = m.id) :
    (l.map f).map (fun m => m.id) = l.map (fun m => m.id) := by
  induction l with
  | nil => rfl
  | cons a l ih => simp [hid, ih]

/-- A row fixed by the mapped function stays in the mapped list. -/
theorem mem_map_of_fix {l : List MemoRow} {f : MemoRow → MemoRow} {m : MemoRow}
    (hm : m ∈ l) (hfix : f m = m) : m ∈ l.map f := by
  have h := List.mem_map_of_mem f hm
  rwa [hfix] at h

/-- After conditionally rewriting the row with the sought id, the lookup
finds the rewritten row. -/
theorem find?_map_ite_found (l : List MemoRow) (mid : Int) (g : MemoRow → MemoRow)
    (hid : ∀ m, (g m).id = m.id) (existing : MemoRow)
    (hfind : l.find? (fun m : MemoRow => m.id = mid) = some existing) :
    (l.map (fun m => if m.id = mid then g m else m)).find?
      (fun m : MemoRow => m.id = mid) = some (g existing) := by
  induction l with
  | nil => simp [List.find?] at hfind
  | cons a l ih =>
      by_cases ha : a.id = mid
      · have ha2 : a = existing := by simpa [List.find?, ha] using hfind
        subst ha2
        simp [List.find?, ha, hid]
      · have hrec : l.find? (fun m : MemoRow => m.id = mid) = some existing := by
          simpa [List.find?, ha] using hfind
        simpa [List.find?, ha, hid] using ih hrec

/-- `update_memo` leaves the number of memos rows unchanged. -/
theorem update_memo_length (st : DBState) (id : Int) (c fc s t : String)
    (e : Option (List Nat)) :
    (update_memo st id c fc s t e).memos.length = st.memos.length := by
  simp [update_memo]

/-- `update_memo` leaves the id column unchanged. -/
theorem update_memo_map_id (st : DBState) (id : Int) (c fc s t : String)
    (e : Option (List Nat)) :
    (update_memo st id c fc s t e).memos.map (fun m => m.id) =
      st.memos.map (fun m => m.id) := by
  simp only [update_memo]
  exact map_map_id_of_id _ _ (fun m => by by_cases h : m.id = id <;> simp [h])

/-- `update_memo` leaves rows with a different id unchanged. -/
theorem update_memo_mem (st : DBState) (id : Int) (c fc s t : String)
    (e : Option (List Nat)) (m : MemoRow) (hm : m ∈ st.memos)
    (hne : ¬ m.id = id) :
    m ∈ (update_memo st id c fc s t e).memos := by
  simp only [update_memo]
  exact mem_map_of_fix hm (by simp [hne])

/-- Looking up the target id after `update_memo` finds the overwritten row. -/
theorem update_memo_find? (st : DBState) (id : Int) (c fc s t : String)
    (e : Option (List Nat)) (existing : MemoRow)
    (hfind : st.memos.find? (fun m : MemoRow => m.id = id) = some existing) :
    (update_memo st id c fc s t e).memos.find? (fun m : MemoRow => m.id = id) =
      some { existing with
        content := c
        formatted_content := fc
        summary := s
        tags := t
        embedding := e
        updated_at := st.now } := by
  simp only [update_memo]
  have h := find?_map_ite_found st.memos id (fun m =>
    { m with
      content := c
      formatted_content := fc
      summary := s
      tags := t
      embedding := e
      updated_at := st.now }) (fun m => rfl) existing hfind
  exact h

/-- An `Except` value whose `Prod.fst` image is `ok` is `ok` itself. -/
theorem except_ok_fst {ε α β : Type} (e : Except ε (α × β)) (a : α)
    (h : e.map Prod.fst = Except.ok a) : ∃ b, e = Except.ok (a, b) := by
  cases e with
  | error _ => simp [Except.map] at h
  | ok p =>
      refine ⟨p.2, ?_⟩
      simp only [Except.map, Except.ok.injEq] at h
      rw [← h]

/-- With a configured API key, `input_memo` on a single analysis item reduces
to one `processItem` step over a state whose memos are unchanged. -/
theorem input_memo_single_ok (st : DBState) (content : String) (item : AnalysisResult)
    (usage : TokenUsage) (hkey : settingValue st "gemini_api_key" ≠ "") :
    ∃ st1, st1.memos = st.memos ∧ st1.now = st.now ∧
      st1.nextMemoId = st.nextMemoId ∧
      ∃ r, input_memo st content (Except.ok ([item], usage)) =
        Except.ok ((processItem st.memos content
          { db := st1
            saved_count := 0
            merged_count := 0
            titles := []
            schedules_added := 0
            todos_added := 0
            transactions_added := 0
            last_memo_id := none } item).db, r) := by
  refine ⟨log_api_usage st "analyze"
      (if settingValue st "gemini_model" = "" then "gemini-3-flash-preview"
       else settingValue st "gemini_model")
      usage.input_tokens usage.output_tokens usage.cost_usd, rfl, rfl, rfl,
    except_ok_fst _ _ ?_⟩
  simp only [input_memo, get_setting, get_all_memos, Except.toOption,
    Option.getD_some]
  rw [if_neg hkey]
  rw [List.foldl_cons, List.foldl_nil]
  rfl

/-- C2: on a single-item submission, a merge target resolving against the
fetched memo list yields exactly one updated memos row and zero inserts,
while an absent merge target yields exactly one inserted row and zero
updates. -/
theorem input_memo_merge_or_insert (st : DBState) (content : String)
    (item : AnalysisResult) (usage : TokenUsage)
    (hkey : settingValue st "gemini_api_key" ≠ "") :
    (∀ mid existing, item.should_merge_with = some mid →
      st.memos.find? (fun m : MemoRow => m.id = mid) = some existing →
      ∃ st2 r, input_memo st content (Except.ok ([item], usage)) = Except.ok (st2, r) ∧
        st2.memos.length = st.memos.length ∧
        st2.memos.map (fun m => m.id) = st.memos.map (fun m => m.id) ∧
        (∀ m ∈ st.memos, ¬ m.id = mid → m ∈ st2.memos)) ∧
    (item.should_merge_with = none →
      ∃ st2 r, input_memo st content (Except.ok ([item], usage)) = Except.ok (st2, r) ∧
        ∃ row, st2.memos = st.memos ++ [row]) := by
  obtain ⟨st1, h1, h2, h3, r, hred⟩ := input_memo_single_ok st content item usage hkey
  constructor
  · intro mid existing hmerge hfind
    refine ⟨_, r, hred, ?_, ?_, ?_⟩
    · simp only [processItem, hmerge, h1, hfind, saveSchedules_memos,
        saveTodos_memos, saveTransactions_memos]
      rw [update_memo_length, h1]
    · simp only [processItem, hmerge, h1, hfind, saveSchedules_memos,
        saveTodos_memos, saveTransactions_memos]
      rw [update_memo_map_id, h1]
    · intro m hm hne
      simp only [processItem, hmerge, h1, hfind, saveSchedules_memos,
        saveTodos_memos, saveTransactions_memos]
      exact update_memo_mem _ _ _ _ _ _ _ m (h1 ▸ hm) hne
  · intro hnone
    refine ⟨_, r, hred, ?_⟩
    refine ⟨{ id := st1.nextMemoId
              title := item.title
              content := content
              formatted_content := item.formatted_content
              summary := item.summary
              category := item.category
              tags := String.intercalate ", " item.tags
              embedding := none
              created_at := st1.now
              updated_at := st1.now }, ?_⟩
    simp only [processItem, hnone, saveSchedules_memos, saveTodos_memos,
      saveTransactions_memos, save_memo, h1]

/-- The fetched memo list fixture used by witnesses: one memo with id 1,
tags "a". -/
def memoA : MemoRow :=
  { id := 1
    title := "t1"
    content := "c1"
    formatted_content := "f1"
    summary := "s1"
    category := "cat"
    tags := "a"
    embedding := none
    created_at := "d"
    updated_at := "d" }

/-- Concrete store fixture used by witnesses. -/
def stW : DBState :=
  { memos := [memoA]
    schedules := []
    todos := []
    transactions := []
    attachments := []
    settings := [("gemini_api_key", "K")]
    apiUsage := []
    nextMemoId := 2
    nextScheduleId := 1
    nextTodoId := 1
    nextTxId := 1
    now := "NOW" }

/-- A single analysis item that merges into memo 1 with tags ["b"]. -/
def itemMerge : AnalysisResult :=
  { title := "t2"
    formatted_content := "f2"
    summary := "s2"
    category := "cat"
    tags := ["b"]
    should_merge_with := some 1
    schedules := []
    todos := []
    transactions := [] }

/-- The same item with no merge target. -/
def itemNew : AnalysisResult := { itemMerge with should_merge_with := none }

/-- Token usage fixture. -/
def usageW : TokenUsage := { input_tokens := 1, output_tokens := 2, cost_usd := 0 }

/-- Witness for C2 at the concrete fixture: both the merge half and the
insert half apply. -/
theorem input_memo_merge_or_insert_witness :
    (∃ st2 r, input_memo stW "x" (Except.ok ([itemMerge], usageW)) = Except.ok (st2, r) ∧
      st2.memos.length = stW.memos.length ∧
      st2.memos.map (fun m => m.id) = stW.memos.map (fun m => m.id) ∧
      (∀ m ∈ stW.memos, ¬ m.id = 1 → m ∈ st2.memos)) ∧
    (∃ st2 r, input_memo stW "x" (Except.ok ([itemNew], usageW)) = Except.ok (st2, r) ∧
      ∃ row, st2.memos = stW.memos ++ [row]) :=
  ⟨(input_memo_merge_or_insert stW "x" itemMerge usageW (by decide)).1 1 memoA
      rfl (by decide),
   (input_memo_merge_or_insert stW "x" itemNew usageW (by decide)).2 rfl⟩

/-- C4 counterexample: at the concrete fixture the merged row's tags are
"a, b" — the existing tags concatenated with the new ones — not the new
analysis's tags "b", so tags are not overwritten. -/
theorem input_memo_tags_not_overwritten :
    ((input_memo stW "x" (Except.ok ([itemMerge], usageW))).toOption.bind
        (fun p => (p.1.memos.find? (fun m : MemoRow => m.id = 1)).map
          (fun m => m.tags))) = some "a, b" ∧
      ("a, b" : String) ≠ "b" := by
  constructor
  · rfl
  · decide

/-- C4 as amended: on a resolving merge, content and formatted_content are
the existing values concatenated with the new values via the separator, the
summary is overwritten with the new analysis's value, and the tags are the
existing tags concatenated with the new ones via ", " (only overwritten when
the existing tags are empty); the embedding is cleared and updated_at
touched. -/
theorem input_memo_merge_concatenates (st : DBState) (content : String)
    (item : AnalysisResult) (usage : TokenUsage) (mid : Int) (existing : MemoRow)
    (hkey : settingValue st "gemini_api_key" ≠ "")
    (hmerge : item.should_merge_with = some mid)
    (hfind : st.memos.find? (fun m : MemoRow => m.id = mid) = some existing) :
    ∃ st2 r, input_memo st content (Except.ok ([item], usage)) = Except.ok (st2, r) ∧
      st2.memos.find? (fun m : MemoRow => m.id = mid) =
        some { existing with
          content := existing.content ++ "\n\n---\n\n" ++ content
          formatted_content :=
            existing.formatted_content ++ "\n\n---\n\n" ++ item.formatted_content
          summary := item.summary
          tags := if existing.tags = "" then String.intercalate ", " item.tags
                  else existing.tags ++ ", " ++ String.intercalate ", " item.tags
          embedding := none
          updated_at := st.now } := by
  obtain ⟨st1, h1, h2, h3, r, hred⟩ := input_memo_single_ok st content item usage hkey
  refine ⟨_, r, hred, ?_⟩
  simp only [processItem, hmerge, h1, hfind, saveSchedules_memos,
    saveTodos_memos, saveTransactions_memos]
  have hf : st1.memos.find? (fun m : MemoRow => m.id = mid) = some existing := by
    rw [h1]; exact hfind
  rw [update_memo_find? _ _ _ _ _ _ _ _ hf, h2]

/-- Witness for C4 (amended) at the concrete fixture. -/
theorem input_memo_merge_concatenates_witness :
    ∃ st2 r, input_memo stW "x" (Except.ok ([itemMerge], usageW)) = Except.ok (st2, r) ∧
      st2.memos.find? (fun m : MemoRow => m.id = 1) =
        some { memoA with
          content := memoA.content ++ "\n\n---\n\n" ++ "x"
          formatted_content :=
            memoA.formatted_content ++ "\n\n---\n\n" ++ itemMerge.formatted_content
          summary := itemMerge.summary
          tags := if memoA.tags = "" then String.intercalate ", " itemMerge.tags
                  else memoA.tags ++ ", " ++ String.intercalate ", " itemMerge.tags
          embedding := none
          updated_at := stW.now } :=
  input_memo_merge_concatenates stW "x" itemMerge usageW 1 memoA (by decide) rfl
    (by decide)

/-- After `delete_memo`, no memos row carries the deleted id. -/
theorem delete_memo_gone (st : DBState) (mid : Int) :
    ∀ m ∈ (delete_memo st mid).memos, ¬ m.id = mid := by
  intro m hm
  by_cases hex : st.memos.any (fun mm : MemoRow => mm.id = mid) = true
  · simp only [delete_memo, if_pos hex, List.mem_filter] at hm
    simpa using hm.2
  · simp only [delete_memo, if_neg hex] at hm
    intro hcontra
    exact hex (List.any_eq_true.mpr ⟨m, hm, by simp [hcontra]⟩)

/-- C3: deleting an existing memo keeps every referencing schedule, todo and
transaction row alive, nulls their memo_id per the declared
`ON DELETE SET NULL`, leaves non-referencing rows unchanged, and removes the
memo itself. -/
theorem delete_memo_on_delete_set_null (st : DBState) (id : Int)
    (hex : st.memos.any (fun m : MemoRow => m.id = id) = true) :
    ((delete_memo st id).schedules.length = st.schedules.length ∧
     (delete_memo st id).todos.length = st.todos.length ∧
     (delete_memo st id).transactions.length = st.transactions.length) ∧
    (∀ s ∈ st.schedules, s.memo_id = some id →
      { s with memo_id := none } ∈ (delete_memo st id).schedules) ∧
    (∀ s ∈ st.schedules, ¬ s.memo_id = some id → s ∈ (delete_memo st id).schedules) ∧
    (∀ t ∈ st.todos, t.memo_id = some id →
      { t with memo_id := none } ∈ (delete_memo st id).todos) ∧
    (∀ t ∈ st.todos, ¬ t.memo_id = some id → t ∈ (delete_memo st id).todos) ∧
    (∀ t ∈ st.transactions, t.memo_id = some id →
      { t with memo_id := none } ∈ (delete_memo st id).transactions) ∧
    (∀ t ∈ st.transactions, ¬ t.memo_id = some id → t ∈ (delete_memo st id).transactions) ∧
    (∀ m ∈ (delete_memo st id).memos, ¬ m.id = id) := by
  refine ⟨⟨?_, ?_, ?_⟩, ?_, ?_, ?_, ?_, ?_, ?_, delete_memo_gone st id⟩
  · simp only [delete_memo, if_pos hex]
    simp
  · simp only [delete_memo, if_pos hex]
    simp
  · simp only [delete_memo, if_pos hex]
    simp
  · intro s hs hsm
    simp only [delete_memo, if_pos hex]
    have h := List.mem_map_of_mem
      (fun s : ScheduleRow => if s.memo_id = some id then { s with memo_id := none } else s) hs
    simpa [hsm] using h
  · intro s hs hsm
    simp only [delete_memo, if_pos hex]
    have h := List.mem_map_of_mem
      (fun s : ScheduleRow => if s.memo_id = some id then { s with memo_id := none } else s) hs
    simpa [hsm] using h
  · intro t ht htm
    simp only [delete_memo, if_pos hex]
    have h := List.mem_map_of_mem
      (fun t : TodoRow => if t.memo_id = some id then { t with memo_id := none } else t) ht
    simpa [htm] using h
  · intro t ht htm
    simp only [delete_memo, if_pos hex]
    have h := List.mem_map_of_mem
      (fun t : TodoRow => if t.memo_id = some id then { t with memo_id := none } else t) ht
    simpa [htm] using h
  · intro t ht htm
    simp only [delete_memo, if_pos hex]
    have h := List.mem_map_of_mem
      (fun t : TxRow => if t.memo_id = some id then { t with memo_id := none } else t) ht
    simpa [htm] using h
  · intro t ht htm
    simp only [delete_memo, if_pos hex]
    have h := List.mem_map_of_mem
      (fun t : TxRow => if t.memo_id = some id then { t with memo_id := none } else t) ht
    simpa [htm] using h

/-- Schedule fixture referencing memo 1. -/
def schedW : ScheduleRow :=
  { id := 1
    memo_id := some 1
    title := "s"
    start_time := none
    end_time := none
    location := none
    description := none
    google_event_id := none
    created_at := "d" }

/-- Todo fixture referencing memo 1. -/
def todoW : TodoRow :=
  { id := 1
    memo_id := some 1
    title := "td"
    completed := false
    priority := none
    due_date := none
    created_at := "d" }

/-- Todo fixture with a null memo link. -/
def todoNullW : TodoRow := { todoW with id := 2, memo_id := none }

/-- Transaction fixture referencing memo 1. -/
def txW : TxRow :=
  { id := 1
    memo_id := some 1
    tx_type := "expense"
    amount := 10
    description := "x"
    category := none
    tx_date := none
    created_at := "d" }

/-- Store fixture with derived rows attached to memo 1. -/
def stW3 : DBState :=
  { stW with schedules := [schedW], todos := [todoW, todoNullW], transactions := [txW] }

/-- Witness for C3 at the concrete fixture: the referencing schedule survives
with a nulled link, the unrelated todo is untouched, row counts are kept and
the memo is gone. -/
theorem delete_memo_on_delete_set_null_witness :
    { schedW with memo_id := none } ∈ (delete_memo stW3 1).schedules ∧
    todoNullW ∈ (delete_memo stW3 1).todos ∧
    (delete_memo stW3 1).todos.length = stW3.todos.length ∧
    (∀ m ∈ (delete_memo stW3 1).memos, ¬ m.id = 1) := by
  have h := delete_memo_on_delete_set_null stW3 1 (by decide)
  exact ⟨h.2.1 schedW (by decide) (by decide),
    h.2.2.2.2.1 todoNullW (by decide) (by decide), h.1.2.1,
    h.2.2.2.2.2.2.2⟩

/-- C8: each derived-item delete command first deletes the linked memo (when
the item's memo_id is non-null) and then the item; with a null memo_id only
the item itself is deleted and the memos table is untouched. -/
theorem delete_derived_also_deletes_memo (st : DBState) :
    (∀ sid s, st.schedules.find? (fun x : ScheduleRow => x.id = sid) = some s →
      (∀ mid, s.memo_id = some mid →
        ∃ st2, delete_schedule_cmd st sid = Except.ok st2 ∧
          (∀ m ∈ st2.memos, ¬ m.id = mid) ∧ (∀ x ∈ st2.schedules, ¬ x.id = sid)) ∧
      (s.memo_id = none →
        ∃ st2, delete_schedule_cmd st sid = Except.ok st2 ∧ st2.memos = st.memos ∧
          (∀ x ∈ st2.schedules, ¬ x.id = sid))) ∧
    (∀ tid t, st.todos.find? (fun x : TodoRow => x.id = tid) = some t →
      (∀ mid, t.memo_id = some mid →
        ∃ st2, delete_todo_cmd st tid = Except.ok st2 ∧
          (∀ m ∈ st2.memos, ¬ m.id = mid) ∧ (∀ x ∈ st2.todos, ¬ x.id = tid)) ∧
      (t.memo_id = none →
        ∃ st2, delete_todo_cmd st tid = Except.ok st2 ∧ st2.memos = st.memos ∧
          (∀ x ∈ st2.todos, ¬ x.id = tid))) ∧
    (∀ xid x0, st.transactions.find? (fun x : TxRow => x.id = xid) = some x0 →
      (∀ mid, x0.memo_id = some mid →
        ∃ st2, delete_transaction_cmd st xid = Except.ok st2 ∧
          (∀ m ∈ st2.memos, ¬ m.id = mid) ∧ (∀ x ∈ st2.transactions, ¬ x.id = xid)) ∧
      (x0.memo_id = none →
        ∃ st2, delete_transaction_cmd st xid = Except.ok st2 ∧ st2.memos = st.memos ∧
          (∀ x ∈ st2.transactions, ¬ x.id = xid))) := by
  refine ⟨?_, ?_, ?_⟩
  · intro sid s hfind
    constructor
    · intro mid hmid
      refine ⟨delete_schedule_db (delete_memo st mid) sid, ?_, ?_, ?_⟩
      · simp [delete_schedule_cmd, get_schedule_memo_id, hfind, hmid]
      · intro m hm
        exact delete_memo_gone st mid m hm
      · intro x hx
        simp only [delete_schedule_db, List.mem_filter] at hx
        simpa using hx.2
    · intro hnone
      refine ⟨delete_schedule_db st sid, ?_, rfl, ?_⟩
      · simp [delete_schedule_cmd, get_schedule_memo_id, hfind, hnone]
      · intro x hx
        simp only [delete_schedule_db, List.mem_filter] at hx
        simpa using hx.2
  · intro tid t hfind
    constructor
    · intro mid hmid
      refine ⟨delete_todo_db (delete_memo st mid) tid, ?_, ?_, ?_⟩
      · simp [delete_todo_cmd, get_todo_memo_id, hfind, hmid]
      · intro m hm
        exact delete_memo_gone st mid m hm
      · intro x hx
        simp only [delete_todo_db, List.mem_filter] at hx
        simpa using hx.2
    · intro hnone
      refine ⟨delete_todo_db st tid, ?_, rfl, ?_⟩
      · simp [delete_todo_cmd, get_todo_memo_id, hfind, hnone]
      · intro x hx
        simp only [delete_todo_db, List.mem_filter] at hx
        simpa using hx.2
  · intro xid x0 hfind
    constructor
    · intro mid hmid
      refine ⟨delete_transaction_db (delete_memo st mid) xid, ?_, ?_, ?_⟩
      · simp [delete_transaction_cmd, get_transaction_memo_id, hfind, hmid]
      · intro m hm
        exact delete_memo_gone st mid m hm
      · intro x hx
        simp only [delete_transaction_db, List.mem_filter] at hx
        simpa using hx.2
    · intro hnone
      refine ⟨delete_transaction_db st xid, ?_, rfl, ?_⟩
      · simp [delete_transaction_cmd, get_transaction_memo_id, hfind, hnone]
      · intro x hx
        simp only [delete_transaction_db, List.mem_filter] at hx
        simpa using hx.2

/-- Witness for C8 at the concrete fixture: deleting schedule 1 removes memo
1 too, and deleting the unlinked todo 2 leaves the memos untouched. -/
theorem delete_derived_also_deletes_memo_witness :
    (∃ st2, delete_schedule_cmd stW3 1 = Except.ok st2 ∧
      (∀ m ∈ st2.memos, ¬ m.id = 1) ∧ (∀ x ∈ st2.schedules, ¬ x.id = 1)) ∧
    (∃ st2, delete_todo_cmd stW3 2 = Except.ok st2 ∧ st2.memos = stW3.memos ∧
      (∀ x ∈ st2.todos, ¬ x.id = 2)) := by
  have h := delete_derived_also_deletes_memo stW3
  exact ⟨(h.1 1 schedW (by decide)).1 1 (by decide),
    (h.2.1 2 todoNullW (by decide)).2 (by decide)⟩

/-- C10: `get_setting` always returns `Ok` — the empty string when the key is
absent — which is why the API-key check in `input_memo` is an empty-string
comparison, not an error branch. -/
theorem get_setting_never_errors (st : DBState) (key : String) :
    (∃ v, get_setting st key = Except.ok v) ∧
    ((∀ kv ∈ st.settings, ¬ kv.1 = key) → get_setting st key = Except.ok "") ∧
    (settingValue st "gemini_api_key" = "" →
      ∀ content ai, input_memo st content ai =
        Except.error "API 키를 먼저 설정해주세요") := by
  refine ⟨⟨settingValue st key, rfl⟩, ?_, ?_⟩
  · intro h
    have hf : st.settings.find? (fun kv => kv.1 = key) = none := by
      rw [List.find?_eq_none]
      intro kv hkv
      simpa using h kv hkv
    simp [get_setting, settingValue, hf]
  · intro hempty content ai
    simp only [input_memo, get_setting]
    rw [if_pos hempty]

/-- Store fixture with no settings at all. -/
def stEmpty : DBState := { stW with settings := [] }

/-- Witness for C10: a missing key reads as the empty string, and with no
stored API key `input_memo` fails with the configuration message. -/
theorem get_setting_never_errors_witness :
    (∃ v, get_setting stW "nope" = Except.ok v) ∧
    get_setting stW "nope" = Except.ok "" ∧
    input_memo stEmpty "c" (Except.error "e") =
      Except.error "API 키를 먼저 설정해주세요" := by
  have h1 := get_setting_never_errors stW "nope"
  have h2 := get_setting_never_errors stEmpty "k"
  exact ⟨h1.1, h1.2.1 (by decide), h2.2.2 (by decide) "c" (Except.error "e")⟩

/-! ## Secret-key reads (src-tauri/src/db/mod.rs:1220-1345) -/

structure SecretRow where
  id : Int
  key_name : String
  key_value : List Nat
  key_type : String
  provider : String
  provider_url : Option String
  description : Option String
  issued_date : String
  expires_at : Option String
  created_at : String
deriving DecidableEq

/-- Row mapper of every secret-key read query: decrypt the stored value and,
when decryption fails, return the stored (encrypted) text unchanged. -/
def decryptFallback (A : AEADScheme) (mk : List Nat) (r : SecretRow) : SecretRow :=
  { r with key_value :=
      match decrypt_value A mk r.key_value with
      | .ok v => v
      | .error _ => r.key_value }

/-- `get_all_secret_keys` (the `ORDER BY` clause only permutes rows; the row
mapping itself never fails, so the query returns these rows as `Ok`). -/
def get_all_secret_keys (A : AEADScheme) (mk : List Nat)
    (rows : List SecretRow) : List SecretRow :=
  rows.map (decryptFallback A mk)

/-- `get_secret_keys_by_provider`. -/
def get_secret_keys_by_provider (A : AEADScheme) (mk : List Nat)
    (rows : List SecretRow) (provider : String) : List SecretRow :=
  (rows.filter (fun r : SecretRow => r.provider = provider)).map (decryptFallback A mk)

/-- `get_secret_keys_by_type`. -/
def get_secret_keys_by_type (A : AEADScheme) (mk : List Nat)
    (rows : List SecretRow) (key_type : String) : List SecretRow :=
  (rows.filter (fun r : SecretRow => r.key_type = key_type)).map (decryptFallback A mk)

/-- C6: a stored row whose key_value fails to decrypt is returned by all the
secret-key read operations completely unchanged — the encrypted text stands
in for the plaintext instead of an error surfacing. -/
theorem secret_key_reads_fall_back (A : AEADScheme) (mk : List Nat)
    (rows : List SecretRow) (r : SecretRow) (hr : r ∈ rows)
    (hfail : ∃ e, decrypt_value A mk r.key_value = Except.error e) :
    r ∈ get_all_secret_keys A mk rows ∧
    r ∈ get_secret_keys_by_provider A mk rows r.provider ∧
    r ∈ get_secret_keys_by_type A mk rows r.key_type := by
  obtain ⟨e, he⟩ := hfail
  have hfix : decryptFallback A mk r = r := by
    simp [decryptFallback, he]
  refine ⟨?_, ?_, ?_⟩
  · have h := List.mem_map_of_mem (decryptFallback A mk) hr
    rwa [hfix] at h
  · have hrf : r ∈ rows.filter (fun x : SecretRow => x.provider = r.provider) := by
      simp [List.mem_filter, hr]
    have h := List.mem_map_of_mem (decryptFallback A mk) hrf
    rwa [hfix] at h
  · have hrf : r ∈ rows.filter (fun x : SecretRow => x.key_type = r.key_type) := by
      simp [List.mem_filter, hr]
    have h := List.mem_map_of_mem (decryptFallback A mk) hrf
    rwa [hfix] at h

/-- Secret-key row fixture whose stored value is not valid base64. -/
def secretW : SecretRow :=
  { id := 1
    key_name := "n"
    key_value := [33]
    key_type := "API_KEY"
    provider := "P"
    provider_url := none
    description := none
    issued_date := "d"
    expires_at := none
    created_at := "d" }

/-- Witness for C6: the row with undecryptable value comes back unchanged
from all three reads. -/
theorem secret_key_reads_fall_back_witness :
    secretW ∈ get_all_secret_keys idAEAD [] [secretW] ∧
    secretW ∈ get_secret_keys_by_provider idAEAD [] [secretW] secretW.provider ∧
    secretW ∈ get_secret_keys_by_type idAEAD [] [secretW] secretW.key_type :=
  secret_key_reads_fall_back idAEAD [] [secretW] secretW (by decide)
    ⟨"InvalidQuery", rfl⟩

/-! ## Directory scan with cancellation (src-tauri/src/ai.rs:3558-3799)

The filesystem is a tree; `fs::read_dir` failure is the `readable` flag,
`fs::metadata` failure the `metaOk` flag.  The `is_cancelled` closure (an
atomic-bool load) is a function of the running check counter.  The loop is
the explicit stack machine of the source; the trace records every flag check
and every observable step: each `on_file` callback and each `read_dir`
descent.  The statistics aggregation on the collected files (percentages
etc.) happens after the loop and is irrelevant to cancellation; the model
returns the trace and the `cancelled` flag as the result payload. -/

inductive FSTree where
  | file (name : String) (size : Nat) (metaOk : Bool)
  | dir (name : String) (readable : Bool) (entries : List FSTree)

/-- Observable actions of the scan loop. -/
inductive ScanAction where
  | check (b : Bool)
  | onFile (name : String) (size : Nat) (isFolder : Bool)
  | readDir (name : String)
deriving DecidableEq

mutual
/-- Node count of a tree, used as the loop measure. -/
def treeWeight : FSTree → Nat
  | .file _ _ _ => 1
  | .dir _ _ entries => 1 + forestWeight entries
/-- Node count of a forest. -/
def forestWeight : List FSTree → Nat
  | [] => 0
  | t :: ts => treeWeight t + forestWeight ts
end

/-- Every tree has positive weight. -/
theorem treeWeight_pos (t : FSTree) : 1 ≤ treeWeight t := by
  cases t with
  | file _ _ _ => simp [treeWeight]
  | dir _ _ entries => simp only [treeWeight]; omega

/-- Total weight of the stack. -/
def stackWeight : List (FSTree × Nat) → Nat
  | [] => 0
  | (t, _) :: rest => treeWeight t + stackWeight rest

/-- Stack weight distributes over append. -/
theorem stackWeight_append :
    ∀ a b : List (FSTree × Nat), stackWeight (a ++ b) = stackWeight a + stackWeight b := by
  intro a
  induction a with
  | nil => intro b; simp [stackWeight]
  | cons p a ih =>
      intro b
      obtain ⟨t, d⟩ := p
      simp [stackWeight, ih]
      omega

/-- Stack weight is invariant under reversal. -/
theorem stackWeight_reverse :
    ∀ a : List (FSTree × Nat), stackWeight a.reverse = stackWeight a := by
  intro a
  induction a with
  | nil => rfl
  | cons p a ih =>
      obtain ⟨t, d⟩ := p
      simp [stackWeight, List.reverse_cons, stackWeight_append, ih]
      omega

/-- Result of the `for entry in entries` loop. -/
structure EntriesResult where
  trace : List ScanAction
  pushed : List (FSTree × Nat)
  nextCheck : Nat
  cancelled : Bool

/-- The per-entry loop: a flag check before each entry, hidden names skipped,
subdirectories announced and pushed, files announced when their metadata is
readable. -/
def processEntries (c : Nat → Bool) : List FSTree → Nat → Nat → EntriesResult
  | [], _, k => ⟨[], [], k, false⟩
  | e :: es, depth, k =>
    if c k then ⟨[ScanAction.check true], [], k + 1, true⟩
    else
      match e with
      | .file name size metaOk =>
        let tail := processEntries c es depth (k + 1)
        if name.startsWith "." then
          { tail with trace := ScanAction.check false :: tail.trace }
        else if metaOk then
          { tail with trace :=
              ScanAction.check false :: ScanAction.onFile name size false :: tail.trace }
        else
          { tail with trace := ScanAction.check false :: tail.trace }
      | .dir name readable entries =>
        if name.startsWith "." then
          let tail := processEntries c es depth (k + 1)
          { tail with trace := ScanAction.check false :: tail.trace }
        else
          let tail := processEntries c es depth (k + 1)
          { tail with
            trace :=
              ScanAction.check false :: ScanAction.onFile name 0 true :: tail.trace
            pushed := (FSTree.dir name readable entries, depth + 1) :: tail.pushed }

/-- The pushed subdirectories weigh no more than the whole entry list. -/
theorem processEntries_pushed_weight (c : Nat → Bool) :
    ∀ (es : List FSTree) (depth k : Nat),
      stackWeight (processEntries c es depth k).pushed ≤ forestWeight es := by
  intro es
  induction es with
  | nil => intro depth k; simp [processEntries, stackWeight]
  | cons e es ih =>
      intro depth k
      have h := ih depth (k + 1)
      by_cases hc : c k = true
      · simp [processEntries, hc, stackWeight]
      · cases e with
        | file name size metaOk =>
            have h1 := treeWeight_pos (FSTree.file name size metaOk)
            by_cases hh : name.startsWith "."
            · simp [processEntries, hc, hh, forestWeight]
              omega
            · by_cases hmo : metaOk = true
              · simp [processEntries, hc, hh, hmo, forestWeight]
                omega
              · simp [processEntries, hc, hh, hmo, forestWeight]
                omega
        | dir name readable entries =>
            by_cases hh : name.startsWith "."
            · have h1 := treeWeight_pos (FSTree.dir name readable entries)
              simp [processEntries, hc, hh, forestWeight]
              omega
            · simp [processEntries, hc, hh, forestWeight, stackWeight, treeWeight]
              omega

/-- The scan loop of `scan_directory_with_details_cancellable`: a flag check
on each pop (a true read breaks the loop), a depth-11 cutoff, a `read_dir`
attempt otherwise, and the per-entry loop whose new subdirectories are
pushed. -/
def scanLoop (c : Nat → Bool) : List (FSTree × Nat) → Nat → (List ScanAction × Bool × Nat)
  | [], k => ([], false, k)
  | (t, depth) :: rest, k =>
    if c k then ([ScanAction.check true], true, k + 1)
    else if depth > 10 then
      let r := scanLoop c rest (k + 1)
      (ScanAction.check false :: r.1, r.2.1, r.2.2)
    else
      match t with
      | .file name _ _ =>
        let r := scanLoop c rest (k + 1)
        (ScanAction.check false :: ScanAction.readDir name :: r.1, r.2.1, r.2.2)
      | .dir name readable entries =>
        if readable then
          let pr := processEntries c entries depth (k + 1)
          let r := scanLoop c (pr.pushed.reverse ++ rest) pr.nextCheck
          (ScanAction.check false :: ScanAction.readDir name :: (pr.trace ++ r.1),
           pr.cancelled || r.2.1, r.2.2)
        else
          let r := scanLoop c rest (k + 1)
          (ScanAction.check false :: ScanAction.readDir name :: r.1, r.2.1, r.2.2)
termination_by stack _ => stackWeight stack
decreasing_by
  all_goals simp only [stackWeight]
  · exact Nat.lt_add_of_pos_left (treeWeight_pos _)
  · exact Nat.lt_add_of_pos_left (treeWeight_pos _)
  · rw [stackWeight_append, stackWeight_reverse]
    have h := processEntries_pushed_weight c entries depth (k + 1)
    simp only [treeWeight]
    omega
  · exact Nat.lt_add_of_pos_left (treeWeight_pos _)

/-- `scan_directory_with_details_cancellable`: error only when the root path
does not exist; otherwise the loop's action trace plus the `cancelled`
marker, wrapped in `Ok`. -/
def scan_directory_with_details_cancellable (c : Nat → Bool) (root : Option FSTree) :
    Except String (List ScanAction × Bool) :=
  match root with
  | none => .error "경로가 존재하지 않습니다"
  | some t =>
    let r := scanLoop c [(t, 0)] 0
    .ok (r.1, r.2.1)

/-- An action is `true` read of the cancellation flag. -/
def isCancelCheck : ScanAction → Bool
  | ScanAction.check true => true
  | _ => false

/-- The trace contains a filesystem event (an `on_file` callback or a
`read_dir` descent). -/
def hasEvent : List ScanAction → Bool
  | [] => false
  | ScanAction.check _ :: rest => hasEvent rest
  | _ :: _ => true

/-- The trace contains a `true` flag read. -/
def hasTrueCheck : List ScanAction → Bool
  | [] => false
  | ScanAction.check true :: _ => true
  | _ :: rest => hasTrueCheck rest

/-- No filesystem event follows the first `true` flag read. -/
def noEventAfterCancel : List ScanAction → Bool
  | [] => true
  | ScanAction.check true :: rest => !hasEvent rest
  | _ :: rest => noEventAfterCancel rest

/-- `hasEvent` distributes over append. -/
theorem hasEvent_append :
    ∀ a b : List ScanAction, hasEvent (a ++ b) = (hasEvent a || hasEvent b) := by
  intro a
  induction a with
  | nil => intro b; simp [hasEvent]
  | cons x a ih =>
      intro b
      cases x with
      | check bb => simp [hasEvent, ih]
      | onFile n s f => simp [hasEvent]
      | readDir n => simp [hasEvent]

/-- A non-cancelling action passes through `noEventAfterCancel`. -/
theorem noEventAfterCancel_cons (a : ScanAction) (l : List ScanAction)
    (ha : isCancelCheck a = false) :
    noEventAfterCancel (a :: l) = noEventAfterCancel l := by
  cases a with
  | check b =>
      cases b with
      | true => simp [isCancelCheck] at ha
      | false => simp [noEventAfterCancel]
  | onFile n s f => simp [noEventAfterCancel]
  | readDir n => simp [noEventAfterCancel]

/-- A non-cancelling action passes through `hasTrueCheck`. -/
theorem hasTrueCheck_cons (a : ScanAction) (l : List ScanAction)
    (ha : isCancelCheck a = false) :
    hasTrueCheck (a :: l) = hasTrueCheck l := by
  cases a with
  | check b =>
      cases b with
      | true => simp [isCancelCheck] at ha
      | false => simp [hasTrueCheck]
  | onFile n s f => simp [hasTrueCheck]
  | readDir n => simp [hasTrueCheck]

/-- Appending keeps `noEventAfterCancel` when the second part has no events
once the first part cancelled. -/
theorem noEventAfterCancel_append (t1 t2 : List ScanAction)
    (h1 : noEventAfterCancel t1 = true) (h2 : noEventAfterCancel t2 = true)
    (h3 : hasTrueCheck t1 = true → hasEvent t2 = false) :
    noEventAfterCancel (t1 ++ t2) = true := by
  induction t1 with
  | nil => simpa using h2
  | cons x t1 ih =>
      cases x with
      | check bb =>
          cases bb with
          | true =>
              have he1 : hasEvent t1 = false := by
                simpa [noEventAfterCancel] using h1
              have he2 : hasEvent t2 = false := h3 (by simp [hasTrueCheck])
              simp [noEventAfterCancel, hasEvent_append, he1, he2]
          | false =>
              have h1a : noEventAfterCancel t1 = true := by
                simpa [noEventAfterCancel] using h1
              have h3a : hasTrueCheck t1 = true → hasEvent t2 = false := by
                intro hx
                exact h3 (by simp [hasTrueCheck, hx])
              simpa [noEventAfterCancel] using ih h1a h3a
      | onFile n s f =>
          have h1a : noEventAfterCancel t1 = true := by
            simpa [noEventAfterCancel] using h1
          have h3a : hasTrueCheck t1 = true → hasEvent t2 = false := by
            intro hx
            exact h3 (by simp [hasTrueCheck, hx])
          simpa [noEventAfterCancel] using ih h1a h3a
      | readDir n =>
          have h1a : noEventAfterCancel t1 = true := by
            simpa [noEventAfterCancel] using h1
          have h3a : hasTrueCheck t1 = true → hasEvent t2 = false := by
            intro hx
            exact h3 (by simp [hasTrueCheck, hx])
          simpa [noEventAfterCancel] using ih h1a h3a

/-- The cancellation flag is monotone: `cancel_scan` only ever stores `true`
during a scan, so once a read returns `true` every later read does too. -/
def FlagMonotone (c : Nat → Bool) : Prop :=
  ∀ i j, i ≤ j → c i = true → c j = true

/-- Invariant of the per-entry loop: the trace is well-shaped, a `true` check
appears in it exactly when the loop cancelled, and a cancelled loop read the
flag `true` at its last check. -/
theorem processEntries_inv (c : Nat → Bool) :
    ∀ (es : List FSTree) (depth k : Nat),
      noEventAfterCancel (processEntries c es depth k).trace = true ∧
      hasTrueCheck (processEntries c es depth k).trace =
        (processEntries c es depth k).cancelled ∧
      ((processEntries c es depth k).cancelled = true →
        c ((processEntries c es depth k).nextCheck - 1) = true ∧
        1 ≤ (processEntries c es depth k).nextCheck) := by
  intro es
  induction es with
  | nil =>
      intro depth k
      simp [processEntries, noEventAfterCancel, hasTrueCheck]
  | cons e es ih =>
      intro depth k
      obtain ⟨ih1, ih2, ih3⟩ := ih depth (k + 1)
      by_cases hc : c k = true
      · refine ⟨?_, ?_, ?_⟩
        · simp [processEntries, hc, noEventAfterCancel, hasEvent]
        · simp [processEntries, hc, hasTrueCheck]
        · simp only [processEntries, hc, if_pos]
          intro _
          simpa using hc
      · cases e with
        | file name size metaOk =>
            by_cases hh : name.startsWith "."
            · refine ⟨?_, ?_, ?_⟩
              · simp [processEntries, hc, hh, noEventAfterCancel, ih1]
              · simp [processEntries, hc, hh, hasTrueCheck, ih2]
              · simp only [processEntries, hc, hh]
                simpa using ih3
            · by_cases hmo : metaOk = true
              · refine ⟨?_, ?_, ?_⟩
                · simp [processEntries, hc, hh, hmo, noEventAfterCancel, ih1]
                · simp [processEntries, hc, hh, hmo, hasTrueCheck, ih2]
                · simp only [processEntries, hc, hh, hmo]
                  simpa using ih3
              · refine ⟨?_, ?_, ?_⟩
                · simp [processEntries, hc, hh, hmo, noEventAfterCancel, ih1]
                · simp [processEntries, hc, hh, hmo, hasTrueCheck, ih2]
                · simp only [processEntries, hc, hh, hmo]
                  simpa using ih3
        | dir name readable entries =>
            by_cases hh : name.startsWith "."
            · refine ⟨?_, ?_, ?_⟩
              · simp [processEntries, hc, hh, noEventAfterCancel, ih1]
              · simp [processEntries, hc, hh, hasTrueCheck, ih2]
              · simp only [processEntries, hc, hh]
                simpa using ih3
            · refine ⟨?_, ?_, ?_⟩
              · simp [processEntries, hc, hh, noEventAfterCancel, ih1]
              · simp [processEntries, hc, hh, hasTrueCheck, ih2]
              · simp only [processEntries, hc, hh]
                simpa using ih3

/-- A scan started at an already-true flag emits no filesystem event. -/
theorem scanLoop_cancelled_trace (c : Nat → Bool) (stack : List (FSTree × Nat))
    (k : Nat) (hc : c k = true) : hasEvent (scanLoop c stack k).1 = false := by
  cases stack with
  | nil =>
      rw [scanLoop.eq_def]
      simp [hasEvent]
  | cons p rest =>
      obtain ⟨t, depth⟩ := p
      rw [scanLoop.eq_def]
      simp [hc, hasEvent]

/-- C7 core: with a monotone cancellation flag, no `on_file` callback and no
`read_dir` descent ever follows a `true` flag read in the scan trace. -/
theorem scanLoop_noEventAfterCancel (c : Nat → Bool) (hm : FlagMonotone c) :
    ∀ (stack : List (FSTree × Nat)) (k : Nat),
      noEventAfterCancel (scanLoop c stack k).1 = true := by
  intro stack k
  induction stack, k using scanLoop.induct c with
  | case1 k =>
      rw [scanLoop.eq_def]
      simp [noEventAfterCancel]
  | case2 t depth rest k hc =>
      rw [scanLoop.eq_def]
      simp [hc, noEventAfterCancel, hasEvent]
  | case3 t depth rest k hc hd ih =>
      rw [scanLoop.eq_def]
      simp only [hc, hd]
      simpa [noEventAfterCancel] using ih
  | case4 depth rest k hc hd name size metaOk ih =>
      rw [scanLoop.eq_def]
      simp only [hc, hd]
      simpa [noEventAfterCancel] using ih
  | case5 depth rest k hc hd name entries pr ih =>
      rw [scanLoop.eq_def]
      simp only [hc, hd]
      simp only [Bool.false_eq_true, if_false, if_true]
      obtain ⟨p1, p2, p3⟩ := processEntries_inv c entries depth (k + 1)
      rw [noEventAfterCancel_cons (ScanAction.check false) _ rfl,
        noEventAfterCancel_cons (ScanAction.readDir name) _ rfl]
      refine noEventAfterCancel_append _ _ p1 ih ?_
      intro hx
      obtain ⟨hlast, hpos⟩ := p3 (by rw [← p2]; exact hx)
      have hnext : c (processEntries c entries depth (k + 1)).nextCheck = true :=
        hm _ _ (by omega) hlast
      exact scanLoop_cancelled_trace c _ _ hnext
  | case6 depth rest k hc hd name readable entries hr ih =>
      rw [scanLoop.eq_def]
      simp only [hc, hd, hr]
      simpa [noEventAfterCancel] using ih

/-- C7: during a scan whose cancellation flag is monotone (it is only ever
set, as `cancel_scan` does), the command returns a partial result normally
(`Ok`, never an error), and after the first `true` flag check the loop
performs no further `read_dir` descent and no further `on_file` callback. -/
theorem scan_cancellation (c : Nat → Bool) (t : FSTree) (hm : FlagMonotone c) :
    ∃ trace cancelled,
      scan_directory_with_details_cancellable c (some t) = Except.ok (trace, cancelled) ∧
      noEventAfterCancel trace = true :=
  ⟨_, _, rfl, scanLoop_noEventAfterCancel c hm [(t, 0)] 0⟩

/-- Witness for C7: a concrete tree and the monotone flag that turns true
from the third check on. -/
theorem scan_cancellation_witness :
    ∃ trace cancelled,
      scan_directory_with_details_cancellable (fun i => decide (2 ≤ i))
        (some (FSTree.dir "root" true
          [FSTree.file "a" 5 true, FSTree.dir "sub" true [FSTree.file "b" 3 true]])) =
        Except.ok (trace, cancelled) ∧
      noEventAfterCancel trace = true :=
  scan_cancellation (fun i => decide (2 ≤ i))
    (FSTree.dir "root" true
      [FSTree.file "a" 5 true, FSTree.dir "sub" true [FSTree.file "b" 3 true]])
    (fun i j hij hi => by
      simp only [decide_eq_true_eq] at hi ⊢
      omega)

/-! ## Sensitive-data masking (src-tauri/src/ai.rs:386-498)

Rust `&str` is `List Char` here.  The `regex` crate is modelled by a small
engine with its documented leftmost-first (Perl-like) match semantics:
alternation prefers the left branch, quantifiers are greedy, `find_iter`
yields non-overlapping matches left to right.  Unicode classes (`\d`, `\s`,
`\S`, `.`) are modelled by their ASCII/Hangul portions, which is exhaustive
for the inputs considered.  The star rule burns one fuel unit per iteration
and requires progress; with fuel `length + 1` and the non-nullable loop
bodies of these patterns the fuel never runs out. -/

inductive RE where
  | eps
  | cls (p : Char → Bool)
  | seq (a b : RE)
  | alt (a b : RE)
  | star (r : RE)

/-- Greedy star loop: at most `n` iterations of the body, each consuming at
least one character, preferring more iterations (then the empty match). -/
def matchStar
    (matchR : List Char → (List Char → Option (List Char)) → Option (List Char)) :
    Nat → List Char → (List Char → Option (List Char)) → Option (List Char)
  | 0, s, k => k s
  | n + 1, s, k =>
      (matchR s (fun s2 =>
        if s2.length < s.length then matchStar matchR n s2 k else none)) <|> k s

/-- Preference-ordered backtracking matcher in continuation style: the first
continuation success is the leftmost-first match. -/
def matchP (fuel : Nat) : RE → List Char → (List Char → Option (List Char)) → Option (List Char)
  | RE.eps, s, k => k s
  | RE.cls p, s, k =>
    match s with
    | [] => none
    | ch :: rest => if p ch then k rest else none
  | RE.seq a b, s, k => matchP fuel a s (fun s2 => matchP fuel b s2 k)
  | RE.alt a b, s, k => (matchP fuel a s k) <|> (matchP fuel b s k)
  | RE.star r, s, k => matchStar (matchP fuel r) fuel s k

/-- Length of the preferred match of `re` at the start of `sub`, if any. -/
def matchLen (re : RE) (sub : List Char) : Option Nat :=
  (matchP (sub.length + 1) re sub some).map (fun rest => sub.length - rest.length)

/-- Leftmost match at or after position `j`: `(start, length)`. -/
def findFromAux (re : RE) (s : List Char) : Nat → Nat → Option (Nat × Nat)
  | _, 0 => none
  | j, steps + 1 =>
    match matchLen re (s.drop j) with
    | some len => some (j, len)
    | none => findFromAux re s (j + 1) steps

/-- `find_iter`: the non-overlapping matched substrings, left to right. -/
def findIterAux (re : RE) (s : List Char) : Nat → Nat → List (List Char)
  | _, 0 => []
  | j, steps + 1 =>
    match findFromAux re s j (s.length + 1 - j) with
    | none => []
    | some (pos, len) =>
      (s.drop pos).take len :: findIterAux re s (pos + max len 1) steps

/-- All matches of `re` in `s`. -/
def findIter (re : RE) (s : List Char) : List (List Char) :=
  findIterAux re s 0 (s.length + 1)

/-- Index of the first occurrence of `pat` in `s`, if any. -/
def findSubAux (s pat : List Char) : Nat → Nat → Option Nat
  | _, 0 => none
  | j, steps + 1 =>
    if (s.drop j).take pat.length = pat then some j
    else findSubAux s pat (j + 1) steps

/-- First-occurrence index of a substring. -/
def findSub (s pat : List Char) : Option Nat := findSubAux s pat 0 (s.length + 1)

/-- `String::replacen(pat, repl, 1)`: replace the first occurrence. -/
def replacen (s pat repl : List Char) : List Char :=
  match findSub s pat with
  | some j => s.take j ++ repl ++ s.drop (j + pat.length)
  | none => s

/-- Helper of `replaceAll`, scanning left to right with fuel. -/
def replaceAllAux (pat repl : List Char) : List Char → Nat → List Char
  | s, 0 => s
  | s, steps + 1 =>
    match findSub s pat with
    | none => s
    | some j => s.take j ++ repl ++ replaceAllAux pat repl (s.drop (j + pat.length)) steps

/-- `String::replace`: replace all non-overlapping occurrences. -/
def replaceAll (s pat repl : List Char) : List Char :=
  replaceAllAux pat repl s (s.length + 1)

/-! ### The thirteen patterns of `mask_sensitive_info` -/

/-- Single literal char. -/
def chr (ch : Char) : RE := RE.cls (fun c => c = ch)

/-- Char from a list. -/
def oneOf (l : List Char) : RE := RE.cls (fun c => l.contains c)

/-- Sequence of a list of regexes. -/
def seqList : List RE → RE
  | [] => RE.eps
  | r :: rs => RE.seq r (seqList rs)

/-- Literal string. -/
def lit (s : String) : RE := seqList (s.toList.map chr)

/-- Case-insensitive literal (the `(?i)` flag; ASCII folding). -/
def litCI (s : String) : RE :=
  seqList (s.toList.map (fun ch => RE.cls (fun c => c.toLower = ch.toLower)))

/-- First-preferred alternation of a list. -/
def altList : List RE → RE
  | [] => RE.cls (fun _ => false)
  | [r] => r
  | r :: rs => RE.alt r (altList rs)

/-- Greedy `r?`. -/
def opt (r : RE) : RE := RE.alt r RE.eps

/-- Greedy `r+`. -/
def plus (r : RE) : RE := RE.seq r (RE.star r)

/-- `r{n}`. -/
def repExact (r : RE) (n : Nat) : RE := seqList (List.replicate n r)

/-- `r{n,m}` (greedy). -/
def repRange (r : RE) (n m : Nat) : RE :=
  RE.seq (repExact r n) (seqList (List.replicate (m - n) (opt r)))

/-- `r{n,}` (greedy). -/
def repAtLeast (r : RE) (n : Nat) : RE := RE.seq (repExact r n) (RE.star r)

/-- `\d` (ASCII portion). -/
def isDigitC (c : Char) : Bool := decide (48 ≤ c.toNat ∧ c.toNat ≤ 57)

/-- `[A-Z]`. -/
def isUpperC (c : Char) : Bool := decide (65 ≤ c.toNat ∧ c.toNat ≤ 90)

/-- `[a-z]`. -/
def isLowerC (c : Char) : Bool := decide (97 ≤ c.toNat ∧ c.toNat ≤ 122)

/-- `[A-Za-z]`. -/
def isAlphaC (c : Char) : Bool := isUpperC c || isLowerC c

/-- `[0-9A-Za-z]`. -/
def isAlnumC (c : Char) : Bool := isDigitC c || isAlphaC c

/-- `\s` (ASCII portion). -/
def isWsC (c : Char) : Bool :=
  decide (c.toNat = 32 ∨ c.toNat = 9 ∨ c.toNat = 10 ∨ c.toNat = 13 ∨
    c.toNat = 11 ∨ c.toNat = 12)

/-- `[가-힣]`. -/
def isHangulC (c : Char) : Bool := decide (0xAC00 ≤ c.toNat ∧ c.toNat ≤ 0xD7A3)

/-- `.` (any char but newline). -/
def dotC : RE := RE.cls (fun c => !(c = '\n' : Bool))

/-- `[0-9A-Za-z_-]`. -/
def apiCharC (c : Char) : Bool := isAlnumC c || c = '_' || c = '-'

/-- `AIza[0-9A-Za-z_-]{35}`. -/
def re_aiza : RE := RE.seq (lit "AIza") (repExact (RE.cls apiCharC) 35)

/-- `sk-[0-9A-Za-z]{48}`. -/
def re_sk : RE := RE.seq (lit "sk-") (repExact (RE.cls isAlnumC) 48)

/-- `sk-proj-[0-9A-Za-z_-]{100,}`. -/
def re_skproj : RE := RE.seq (lit "sk-proj-") (repAtLeast (RE.cls apiCharC) 100)

/-- `AKIA[0-9A-Z]{16}`. -/
def re_akia : RE :=
  RE.seq (lit "AKIA") (repExact (RE.cls (fun c => isDigitC c || isUpperC c)) 16)

/-- `ghp_[0-9A-Za-z]{36}`. -/
def re_ghp : RE := RE.seq (lit "ghp_") (repExact (RE.cls isAlnumC) 36)

/-- `glpat-[0-9A-Za-z_-]{20}`. -/
def re_glpat : RE := RE.seq (lit "glpat-") (repExact (RE.cls apiCharC) 20)

/-- `[-\s]`. -/
def dashWsC (c : Char) : Bool := c = '-' || isWsC c

/-- `\d{6}[-\s]?\d{7}` (resident registration number). -/
def re_jumin : RE :=
  seqList [repExact (RE.cls isDigitC) 6, opt (RE.cls dashWsC),
    repExact (RE.cls isDigitC) 7]

/-- `[-\s.]`. -/
def dashWsDotC (c : Char) : Bool := c = '-' || isWsC c || c = '.'

/-- `0\d{1,2}[-\s.]?\d{3,4}[-\s.]?\d{4}` (phone number). -/
def re_phone : RE :=
  seqList [chr '0', repRange (RE.cls isDigitC) 1 2, opt (RE.cls dashWsDotC),
    repRange (RE.cls isDigitC) 3 4, opt (RE.cls dashWsDotC),
    repExact (RE.cls isDigitC) 4]

/-- `[a-zA-Z0-9._%+-]`. -/
def emailLocalC (c : Char) : Bool :=
  isAlnumC c || c = '.' || c = '_' || c = '%' || c = '+' || c = '-'

/-- `[a-zA-Z0-9.-]`. -/
def emailDomC (c : Char) : Bool := isAlnumC c || c = '.' || c = '-'

/-- `[a-zA-Z0-9._%+-]+@[a-zA-Z0-9.-]+\.[a-zA-Z]{2,}` (email address). -/
def re_email : RE :=
  seqList [plus (RE.cls emailLocalC), chr '@', plus (RE.cls emailDomC),
    chr '.', repAtLeast (RE.cls isAlphaC) 2]

/-- `\d{4}[-\s]?\d{4}[-\s]?\d{4}[-\s]?\d{4}` (credit card number). -/
def re_card : RE :=
  seqList [repExact (RE.cls isDigitC) 4, opt (RE.cls dashWsC),
    repExact (RE.cls isDigitC) 4, opt (RE.cls dashWsC),
    repExact (RE.cls isDigitC) 4, opt (RE.cls dashWsC),
    repExact (RE.cls isDigitC) 4]

/-- `(?:국민|신한|우리|하나|농협|기업|SC|씨티|케이뱅크|카카오|토스).{0,5}\d{10,14}`
(bank account number). -/
def re_account : RE :=
  seqList [altList [lit "국민", lit "신한", lit "우리", lit "하나", lit "농협",
      lit "기업", lit "SC", lit "씨티", lit "케이뱅크", lit "카카오", lit "토스"],
    repRange dotC 0 5, repRange (RE.cls isDigitC) 10 14]

/-- `[\d\-가-힣\s]`. -/
def addrTailC (c : Char) : Bool := isDigitC c || c = '-' || isHangulC c || isWsC c

/-- The street-address pattern. -/
def re_addr : RE :=
  seqList [altList [lit "서울", lit "부산", lit "대구", lit "인천", lit "광주",
      lit "대전", lit "울산", lit "세종", lit "경기", lit "강원", lit "충북",
      lit "충남", lit "전북", lit "전남", lit "경북", lit "경남", lit "제주"],
    opt (altList [lit "특별시", lit "광역시", lit "특별자치시", lit "도",
      lit "특별자치도"]),
    RE.star (RE.cls isWsC), plus (RE.cls isHangulC),
    altList [lit "시", lit "군", lit "구"],
    RE.star (RE.cls isWsC), plus (RE.cls (fun c => isHangulC c || isDigitC c)),
    altList [lit "로", lit "길", lit "동", lit "읍", lit "면"],
    RE.star (RE.cls isWsC), RE.star (RE.cls addrTailC)]

/-- `(?i)(?:password|비밀번호|비번|pw|암호)\s*[:=]\s*\S+`. -/
def re_pw : RE :=
  seqList [altList [litCI "password", litCI "비밀번호", litCI "비번", litCI "pw",
      litCI "암호"],
    RE.star (RE.cls isWsC), oneOf [':', '='], RE.star (RE.cls isWsC),
    plus (RE.cls (fun c => !isWsC c))]

/-- The patterns with their mask labels, in source order. -/
def maskPatterns : List (String × RE) :=
  [("API키", re_aiza), ("API키", re_sk), ("API키", re_skproj), ("API키", re_akia),
   ("API키", re_ghp), ("API키", re_glpat), ("주민번호", re_jumin),
   ("전화번호", re_phone), ("이메일", re_email), ("카드번호", re_card),
   ("계좌번호", re_account), ("주소", re_addr), ("비밀번호", re_pw)]

/-- Result of `mask_sensitive_info`. -/
structure MaskResult where
  masked : List Char
  mappings : List (List Char × List Char)
deriving DecidableEq

/-- `format!("[{}_{}]", label, counter)`. -/
def mkToken (label : String) (counter : Nat) : List Char :=
  '[' :: label.toList ++ '_' :: (toString counter).toList ++ [']']

/-- One `make_token`-and-`replacen` step of the per-pattern match loop. -/
def maskStep (label : String)
    (st : List Char × Nat × List (List Char × List Char)) (m : List Char) :
    List Char × Nat × List (List Char × List Char) :=
  let counter := st.2.1 + 1
  let token := mkToken label counter
  (replacen st.1 m token, counter, st.2.2 ++ [(token, m)])

/-- One pattern of `mask_sensitive_info`: collect the matches on the current
masked text, then mask each in turn. -/
def maskPattern (st : List Char × Nat × List (List Char × List Char))
    (lp : String × RE) : List Char × Nat × List (List Char × List Char) :=
  (findIter lp.2 st.1).foldl (maskStep lp.1) st

/-- `mask_sensitive_info`. -/
def mask_sensitive_info (text : List Char) : MaskResult :=
  let st := maskPatterns.foldl maskPattern (text, 0, [])
  ⟨st.1, st.2.2⟩

/-- `unmask_text`: apply the mappings in their stored (generation) order,
replacing every occurrence of each token by its original. -/
def unmask_text (masked : List Char)
    (mappings : List (List Char × List Char)) : List Char :=
  mappings.foldl (fun res tm => replaceAll res tm.1 tm.2) masked

/-- C9, evaluated at the failing input "pw=a@b.co": the email is masked
first, the password pattern then masks text containing that token, and
`unmask_text` — applying mappings in generation order — restores the outer
mapping last, leaving the nested email token in place: the round trip
returns "pw=[이메일_1]", not the original text. -/
theorem mask_unmask_not_roundtrip :
    unmask_text (mask_sensitive_info ("pw=a@b.co".toList)).masked
        (mask_sensitive_info ("pw=a@b.co".toList)).mappings =
      "pw=[이메일_1]".toList ∧
    "pw=[이메일_1]".toList ≠ "pw=a@b.co".toList := by
  constructor
  · rfl
  · decide

end JJM
